import Mathlib

/-!
Verification of the GCCG transport API (vsf-tv/gccg-api).

The repository publishes the public interface of the GCCG transport engine:
the header `gccg_transport_api.h` (data types, structures and function
declarations) together with the accompanying design documents. This file
gives a shallow embedding of that interface and of the payload transport
engine the documents describe: the status-code enumeration, the
scatter-gather list, the transmit/receive callback data, the buffer pool,
the completion-ordering scheduler and the timeout manager. Pointers are
modelled as natural-number identifiers and `NULL`-able pointers as `Option`.
-/

namespace Gccg

/-- Enumeration `GccgReturnStatus` from `gccg_transport_api.h`: the values used for API
function return codes, exactly the four enumerators of the header. -/
inductive GccgReturnStatus where
  | kGccgStatusOk
  | kGccgStatusTimeoutExpired
  | kGccgStatusInvalidParameter
  | kGccgStatusError
deriving DecidableEq, Repr, Fintype

/-- Numeric values assigned to the enumerators in the header
(`= 0`, `= 1`, `= 2`, `= 3`). -/
def GccgReturnStatus.toCode : GccgReturnStatus → Nat
  | .kGccgStatusOk => 0
  | .kGccgStatusTimeoutExpired => 1
  | .kGccgStatusInvalidParameter => 2
  | .kGccgStatusError => 3

/-- Structure `GccgPtpTimestamp` from the header: seconds and nanoseconds since the
SMPTE Epoch. -/
structure GccgPtpTimestamp where
  seconds : Nat
  nanoseconds : Nat
deriving DecidableEq, Repr

/-- Structure `GccgSglEntry` from the header: a single contiguous region of memory as
part of a scatter-gather list. `addressPtr` stands for the region's start
address, `sizeInBytes` its size, and `nextPtr` is the next entry in the list
or `none` if this is the final entry (`NULL` in the C declaration). The
chained structure mirrors the singly-linked `next_ptr` field. -/
inductive GccgSglEntry where
  | mk (addressPtr : Nat) (sizeInBytes : Int) (nextPtr : Option GccgSglEntry)

/-- The `size_in_bytes` field of an SGL entry. -/
def GccgSglEntry.sizeInBytes : GccgSglEntry → Int
  | .mk _ s _ => s

/-- The `next_ptr` field of an SGL entry. -/
def GccgSglEntry.nextPtr : GccgSglEntry → Option GccgSglEntry
  | .mk _ _ n => n

/-- Walking the singly-linked list of SGL entries from a given entry and
collecting each entry's `size_in_bytes`, as the header's NOTE on
`total_data_size` prescribes. -/
def GccgSglEntry.walkSizes : GccgSglEntry → List Int
  | .mk _ s none => [s]
  | .mk _ s (some e) => s :: e.walkSizes

/-- The final entry of the singly-linked list starting at a given entry:
follow `next_ptr` until it is `NULL`. -/
def GccgSglEntry.lastEntry : GccgSglEntry → GccgSglEntry
  | .mk a s none => .mk a s none
  | .mk _ _ (some e) => e.lastEntry

/-- Structure `GccgSgList` from the header: a scatter-gather list with an origination
PTP timestamp, the `total_data_size` convenience field, a pointer to the
first entry and a pointer to the last entry of the singly-linked entry
list. -/
structure GccgSgList where
  originationPtpTimestamp : GccgPtpTimestamp
  totalDataSize : Int
  sglHeadPtr : Option GccgSglEntry
  sglTailPtr : Option GccgSglEntry

/-- Sum of `size_in_bytes` over the entry list starting at a head pointer
(zero for an empty list). -/
def sumSizesFrom : Option GccgSglEntry → Int
  | none => 0
  | some e => e.walkSizes.sum

/-- The invariant the header documents for every `GccgSgList`:
`total_data_size` "must be the same as the value calculated from walking the
list and summing the size_in_bytes for each GccgSglEntry", and
`sgl_tail_ptr` is the "pointer to the last entry in the singly-linked list
of SGL entries", i.e. the entry whose `next_ptr` is `NULL`. -/
def sgListWellFormed (l : GccgSgList) : Prop :=
  l.totalDataSize = sumSizesFrom l.sglHeadPtr ∧
  l.sglTailPtr = l.sglHeadPtr.map GccgSglEntry.lastEntry ∧
  (∀ t, l.sglTailPtr = some t → t.nextPtr = none)

/-- Building the singly-linked entry chain from a list of
(address, size) regions. -/
def chainOfRegions : List (Nat × Int) → Option GccgSglEntry
  | [] => none
  | (a, s) :: rest => some (.mk a s (chainOfRegions rest))

/-- Modelled from the spec: the repository contains no code that constructs
a `GccgSgList` (only the declaration); the header's field documentation
says `total_data_size` is computed by "walking the sgl_array" and summing
each entry's `size_in_bytes`, and that `sgl_tail_ptr` points to the last
entry of the list. `mkSgList` builds an SGL over the given memory regions
exactly that way. -/
def mkSgList (ts : GccgPtpTimestamp) (regions : List (Nat × Int)) : GccgSgList :=
  { originationPtpTimestamp := ts
    totalDataSize := sumSizesFrom (chainOfRegions regions)
    sglHeadPtr := chainOfRegions regions
    sglTailPtr := (chainOfRegions regions).map GccgSglEntry.lastEntry }

/-- Structure `GccgMediaElements` from the header: the media-element count and the
SGL array (modelled as the list of SGLs it points to). -/
structure GccgMediaElements where
  count : Int
  sglArray : List GccgSgList

/-- A transmitter connection record as created by `GccgTxConnectionCreate`:
the connection configuration JSON (pointer id) and the user-defined
callback parameter `user_cb_param_ptr`, which the header says "is set as a
parameter of the GccgTxConnectionCreate() API function". -/
structure TxConnection where
  connectionJsonPtr : Nat
  userCbParamPtr : Nat
deriving DecidableEq, Repr

/-- The argument list of `GccgTxPayload` from the header, exactly as
declared: `handle`, `payload_json_ptr`, `media_array` (a struct whose only
pointer member is `sgl_array`) and `timeout_microsecs`. The declaration has
no per-payload user parameter. -/
structure GccgTxPayloadArgs where
  handle : Nat
  payloadJsonPtr : Nat
  mediaSglArrayPtr : Nat
  timeoutMicrosecs : Int
deriving DecidableEq, Repr

/-- Structure `GccgTxCbData` from the header: the data passed to the transmit
callback — a status code, the connection handle, and the user-defined
callback parameter. -/
structure GccgTxCbData where
  statusCode : GccgReturnStatus
  connectionHandle : Nat
  userCbParamPtr : Nat
deriving DecidableEq, Repr

/-- Formation of the transmit-callback data for a payload completion, per
the header: `user_cb_param_ptr` "is set as a parameter of the
GccgTxConnectionCreate() API function", i.e. it is the connection's
creation-time parameter; the submission arguments contribute no user
parameter. -/
def mkTxCbData (conn : TxConnection) (handle : Nat) (status : GccgReturnStatus)
    (_args : GccgTxPayloadArgs) : GccgTxCbData :=
  { statusCode := status
    connectionHandle := handle
    userCbParamPtr := conn.userCbParamPtr }

/-- The opaque pointer values a caller supplies in a `GccgTxPayload`
submission call: the connection handle, the payload JSON pointer and the
media SGL array pointer. -/
def submissionPointerArgs (a : GccgTxPayloadArgs) : List Nat :=
  [a.handle, a.payloadJsonPtr, a.mediaSglArrayPtr]

/-- A concrete transmitter connection created with callback parameter 42. -/
def exampleTxConn : TxConnection :=
  { connectionJsonPtr := 5, userCbParamPtr := 42 }

/-- A concrete `GccgTxPayload` argument list whose pointer values are all
different from the connection's creation-time callback parameter. -/
def exampleTxArgs : GccgTxPayloadArgs :=
  { handle := 7, payloadJsonPtr := 8, mediaSglArrayPtr := 9, timeoutMicrosecs := 1000 }

/-- A second concrete argument list for the same connection, sharing no
field value with `exampleTxArgs` except the handle. -/
def exampleTxArgsB : GccgTxPayloadArgs :=
  { handle := 7, payloadJsonPtr := 18, mediaSglArrayPtr := 19, timeoutMicrosecs := 2000 }

/-- Structure `GccgRxCbData` from the header: status code, connection handle, the
payload JSON string pointer and the media-element array pointer (both
`NULL`-able, modelled as `Option`), and the user-defined callback
parameter. -/
structure GccgRxCbData where
  statusCode : GccgReturnStatus
  connectionHandle : Nat
  payloadJsonStr : Option String
  mediaArray : Option GccgMediaElements
  userCbParamPtr : Nat

/-- Modelled from the spec: the repository contains no code that fills a
`GccgRxCbData` (only the declaration); the header's field documentation
says that `payload_json_str` and `media_array` hold valid pointers "if no
error occurred" and "otherwise the value will be NULL". `mkRxCbData` forms
the receive-callback data for a delivered payload that way. -/
def mkRxCbData (status : GccgReturnStatus) (handle : Nat) (json : String)
    (media : GccgMediaElements) (userParam : Nat) : GccgRxCbData :=
  if status = .kGccgStatusOk then
    { statusCode := status
      connectionHandle := handle
      payloadJsonStr := some json
      mediaArray := some media
      userCbParamPtr := userParam }
  else
    { statusCode := status
      connectionHandle := handle
      payloadJsonStr := none
      mediaArray := none
      userCbParamPtr := userParam }

/-- Lifecycle state of one buffer of a connection's pool, per the spec's
data model: `Free → Allocated → InFlight → PendingFree → Free`. -/
inductive BufferState where
  | free
  | allocated
  | inFlight
  | pendingFree
deriving DecidableEq, Repr

/-- Modelled from the spec: the repository contains no Buffer Pool
implementation (the spec's §4.2 describes it); a pool holds the per-buffer
lifecycle states of the `buffer_count` fixed-size regions allocated once at
connection creation. -/
structure BufferPool where
  bufs : List BufferState
deriving DecidableEq, Repr

/-- The pool as allocated at connection creation: `bufferCount` regions,
all `Free`. -/
def initPool (bufferCount : Nat) : BufferPool :=
  ⟨List.replicate bufferCount .free⟩

/-- Index of the first `Free` entry of the pool, if any. -/
def findFreeIdx (l : List BufferState) : Option Nat :=
  l.findIdx? (fun b => decide (b = BufferState.free))

/-- Modelled from the spec: "a request for a Buffer scans for a `Free`
entry, marks it `Allocated`, and returns it; if none is free the request
returns immediately with an empty/no-buffer result — it never blocks and
never grows the pool." -/
def requestBuffer (p : BufferPool) : Option Nat × BufferPool :=
  match findFreeIdx p.bufs with
  | none => (none, p)
  | some i => (some i, ⟨p.bufs.set i .allocated⟩)

/-- Transition buffer `i` from state `fromSt` to state `toSt`; a request
naming a buffer not in the expected state is an error and changes
nothing. -/
def setIfState (p : BufferPool) (i : Nat) (fromSt toSt : BufferState) : BufferPool :=
  match p.bufs[i]? with
  | some b => if b = fromSt then ⟨p.bufs.set i toSt⟩ else p
  | none => p

/-- Indices of the pool's `Free` entries, in ascending order. -/
def freeIndices (p : BufferPool) : List Nat :=
  (List.range p.bufs.length).filter (fun i => decide (p.bufs[i]? = some .free))

/-- Mark each of the given buffer indices `Allocated`. -/
def allocateIndices (p : BufferPool) (idxs : List Nat) : BufferPool :=
  ⟨idxs.foldl (fun l i => l.set i .allocated) p.bufs⟩

/-- Modelled from the spec: "Segmented requests atomically reserve up to 8
`Free` entries as one SegmentSet or fail entirely (no partial reservation)
— returning an error if fewer than 8 are free when segmentation was
requested." -/
def requestSegmentSet (p : BufferPool) : Option (List Nat) × BufferPool :=
  if 8 ≤ (freeIndices p).length then
    (some ((freeIndices p).take 8), allocateIndices p ((freeIndices p).take 8))
  else
    (none, p)

/-- One caller-visible operation on a connection's buffer pool, per the
spec's §4.2: request a buffer, request a segment set, submit an allocated
buffer (it becomes `InFlight`), complete an in-flight buffer (it becomes
`PendingFree`), release a pending-free buffer back to `Free`. -/
inductive PoolOp where
  | request
  | requestSegments
  | submit (i : Nat)
  | complete (i : Nat)
  | release (i : Nat)
deriving DecidableEq, Repr

/-- Apply one pool operation; the returned index or segment list of a
request is dropped, keeping only the pool state. -/
def applyPoolOp (p : BufferPool) : PoolOp → BufferPool
  | .request => (requestBuffer p).2
  | .requestSegments => (requestSegmentSet p).2
  | .submit i => setIfState p i .allocated .inFlight
  | .complete i => setIfState p i .inFlight .pendingFree
  | .release i => setIfState p i .pendingFree .free

/-- The pool state reached from a fresh pool of `bufferCount` buffers after
a sequence of operations. -/
def runPool (bufferCount : Nat) (ops : List PoolOp) : BufferPool :=
  ops.foldl applyPoolOp (initPool bufferCount)

/-- Number of buffers of the pool in `Allocated` or `InFlight` state. -/
def countActive (p : BufferPool) : Nat :=
  p.bufs.countP (fun b => decide (b = BufferState.allocated ∨ b = BufferState.inFlight))

/-- Modelled from the spec: the repository contains no Payload Scheduler
implementation (the spec's §4.3 describes it); its completion-ordering
state for one connection: `nextToDeliver` is the lowest sequence number not
yet delivered to the callback, `heldBack` holds the sequence numbers the
transport has acknowledged but whose delivery is held back because a
lower-sequence payload is still outstanding, and `delivered` records the
sequence numbers already delivered to the callback, in delivery order. -/
structure SchedulerState where
  nextToDeliver : Nat
  heldBack : List Nat
  delivered : List Nat
deriving DecidableEq, Repr

/-- Scheduler state of a fresh connection: nothing submitted, nothing
delivered. -/
def initScheduler : SchedulerState :=
  ⟨0, [], []⟩

/-- The delivery loop of the scheduler, with an explicit iteration bound:
while the next sequence number to deliver has been acknowledged (is held
back), deliver it to the callback and advance. Each iteration removes one
held-back entry, so `held.length` iterations always suffice. -/
def drainLoop : Nat → Nat → List Nat → List Nat → SchedulerState
  | 0, next, held, delivered => ⟨next, held, delivered⟩
  | fuel + 1, next, held, delivered =>
      if next ∈ held then
        drainLoop fuel (next + 1) (held.erase next) (delivered ++ [next])
      else
        ⟨next, held, delivered⟩

/-- Deliver every completion that has become ready: run the delivery loop
to completion. -/
def drainReady (next : Nat) (held : List Nat) (delivered : List Nat) : SchedulerState :=
  drainLoop held.length next held delivered

/-- The scheduler's reaction to the transport acknowledging the payload
with sequence number `s`: the completion joins the held-back set, then
every completion that has become ready is delivered in ascending sequence
order. -/
def processAck (st : SchedulerState) (s : Nat) : SchedulerState :=
  drainReady st.nextToDeliver (s :: st.heldBack) st.delivered

/-- Scheduler state after the transport has acknowledged the given
sequence numbers, in the given (possibly out-of-submission) order. -/
def runAcks (acks : List Nat) : SchedulerState :=
  acks.foldl processAck initScheduler

/-- The scheduler's operating invariant relative to the set of sequence
numbers the transport has acknowledged so far: the delivered events are
exactly the sequence numbers below `nextToDeliver` in ascending order;
the held-back entries are distinct and all above `nextToDeliver`; and the
delivered and held-back sequence numbers together are exactly the
acknowledged ones (no duplication, no loss). -/
def SchedInv (st : SchedulerState) (acked : List Nat) : Prop :=
  st.delivered = List.range st.nextToDeliver ∧
  st.heldBack.Nodup ∧
  (∀ x ∈ st.heldBack, st.nextToDeliver < x) ∧
  List.Perm (st.delivered ++ st.heldBack) acked

/-- One completion event surfaced by the engine for a submitted payload:
the time it is generated and its status code. -/
structure TxCompletion where
  timeMicrosecs : Nat
  statusCode : GccgReturnStatus
deriving DecidableEq, Repr

/-- Whether a submitted payload is still awaiting resolution or has been
resolved (completed or timed out). -/
inductive PayloadPhase where
  | inFlight
  | done
deriving DecidableEq, Repr

/-- The lifecycle record of one submitted payload: its phase and the
completion events generated for it so far. -/
structure PayloadRun where
  phase : PayloadPhase
  events : List TxCompletion
deriving DecidableEq, Repr

/-- Modelled from the spec: the repository contains no Timeout Manager
implementation (the spec's §4.4 describes it); one observation instant at
time `now` for a payload with absolute deadline `deadline` (submission
time plus the caller's timeout): a resolved payload is never touched
again; an in-flight payload whose deadline has elapsed resolves to a
single `TimeoutExpired` completion; otherwise a transport acknowledgement
arriving at `now` resolves it to a single `Ok` completion. -/
def timeoutTick (deadline : Nat) (st : PayloadRun) (now : Nat) (ackNow : Bool) : PayloadRun :=
  match st.phase with
  | .done => st
  | .inFlight =>
      if deadline < now then
        { phase := .done, events := st.events ++ [⟨now, .kGccgStatusTimeoutExpired⟩] }
      else if ackNow then
        { phase := .done, events := st.events ++ [⟨now, .kGccgStatusOk⟩] }
      else st

/-- The payload's lifecycle after a sequence of observation instants, each
an instant time paired with whether the transport acknowledged the payload
at that instant. -/
def runTimeout (deadline : Nat) (ticks : List (Nat × Bool)) : PayloadRun :=
  ticks.foldl (fun st t => timeoutTick deadline st t.1 t.2) ⟨.inFlight, []⟩

/-- The payload-lifecycle invariant: a resolved payload has produced
exactly one completion event; an unresolved payload has produced none. -/
def TimeoutInv (st : PayloadRun) : Prop :=
  (st.phase = .done ∧ st.events.length = 1) ∨
  (st.phase = .inFlight ∧ st.events = [])

/-- Modelled from the spec: the repository contains no Connection Registry
implementation (the spec's §4.1 describes it); the registry state: the
next unused handle value, the handles of live connections, and the
connection-level submission counter advanced by each accepted payload. -/
structure Engine where
  nextHandle : Nat
  live : List Nat
  nextSeq : Nat
deriving DecidableEq, Repr

/-- Modelled from the spec: `GccgConnectionDestroy` — destroying a live
connection removes it from the registry and succeeds; "Destroy on an
already-destroyed or unknown handle fails with an invalid-parameter error
rather than being a no-op". -/
def gccgConnectionDestroy (e : Engine) (handle : Nat) : GccgReturnStatus × Engine :=
  if handle ∈ e.live then
    (.kGccgStatusOk, { e with live := e.live.erase handle })
  else
    (.kGccgStatusInvalidParameter, e)

/-- Modelled from the spec: the submission path of `GccgTxPayload` — "A
zero or negative timeout is an invalid parameter" and "Synchronous calls
fail fast with an immediate status and make no state change on failure";
an accepted submission advances the connection's sequence counter. -/
def gccgTxPayload (e : Engine) (args : GccgTxPayloadArgs) : GccgReturnStatus × Engine :=
  if args.timeoutMicrosecs ≤ 0 then
    (.kGccgStatusInvalidParameter, e)
  else if args.handle ∈ e.live then
    (.kGccgStatusOk, { e with nextSeq := e.nextSeq + 1 })
  else
    (.kGccgStatusInvalidParameter, e)

/-- Following `next_ptr` to the final entry of a list always ends at an
entry whose `next_ptr` is `NULL`. -/
theorem lastEntry_nextPtr : ∀ e : GccgSglEntry, e.lastEntry.nextPtr = none
  | .mk _ _ none => rfl
  | .mk _ _ (some e) => lastEntry_nextPtr e

/-- C5 counterexample: the claim asserts the status-code set contains a
fifth code `BufferTooSmall`, distinct from `Ok`, `TimeoutExpired`,
`InvalidParameter` and `Error`; the enumeration `GccgReturnStatus` of the
header has no such value. -/
theorem gccg_C5_counterexample :
    ¬ ∃ s : GccgReturnStatus, s ≠ .kGccgStatusOk ∧ s ≠ .kGccgStatusTimeoutExpired ∧
      s ≠ .kGccgStatusInvalidParameter ∧ s ≠ .kGccgStatusError := by
  decide

/-- C5 (amended): the set of status codes returnable by API functions is
exactly the four enumerators {Ok, TimeoutExpired, InvalidParameter, Error}
of `GccgReturnStatus`, with numeric codes 0, 1, 2, 3; there is no
`BufferTooSmall` status code. -/
theorem gccg_C5_status_set :
    (∀ s : GccgReturnStatus, s = .kGccgStatusOk ∨ s = .kGccgStatusTimeoutExpired ∨
      s = .kGccgStatusInvalidParameter ∨ s = .kGccgStatusError) ∧
    Fintype.card GccgReturnStatus = 4 ∧
    GccgReturnStatus.toCode .kGccgStatusOk = 0 ∧
    GccgReturnStatus.toCode .kGccgStatusTimeoutExpired = 1 ∧
    GccgReturnStatus.toCode .kGccgStatusInvalidParameter = 2 ∧
    GccgReturnStatus.toCode .kGccgStatusError = 3 := by
  decide

/-- C8 counterexample: for a connection created with callback parameter 42
and a payload submitted through `GccgTxPayload` with pointer arguments
7, 8, 9, the completion event carries back parameter 42, which is none of
the values supplied at submission — the parameter is not "given at
submission"; moreover two submissions with entirely different argument
values on the same connection produce identical callback data. -/
theorem gccg_C8_counterexample :
    (mkTxCbData exampleTxConn 7 .kGccgStatusOk exampleTxArgs).userCbParamPtr ∉
      submissionPointerArgs exampleTxArgs ∧
    mkTxCbData exampleTxConn 7 .kGccgStatusOk exampleTxArgs =
      mkTxCbData exampleTxConn 7 .kGccgStatusOk exampleTxArgsB := by
  decide

/-- C8 (amended): the completion event delivered for a payload carries back
the caller-supplied opaque parameter given at connection creation
(the `user_cb_param_ptr` argument of `GccgTxConnectionCreate`); the
parameter is per-connection, not per-payload, and `GccgTxPayload` has no
per-payload opaque parameter, so the callback data is independent of the
submission arguments. -/
theorem gccg_C8_connection_param (conn : TxConnection) (handle : Nat)
    (status : GccgReturnStatus) (args argsB : GccgTxPayloadArgs) :
    (mkTxCbData conn handle status args).userCbParamPtr = conn.userCbParamPtr ∧
    mkTxCbData conn handle status args = mkTxCbData conn handle status argsB :=
  ⟨rfl, rfl⟩

/-- C9: every `GccgSgList` formed by the API over any list of memory
regions is well-formed: its `total_data_size` equals the sum of
`size_in_bytes` over the singly-linked entry list starting at
`sgl_head_ptr`, and `sgl_tail_ptr` points to the final entry of that list,
the entry whose `next_ptr` is `NULL`. -/
theorem gccg_C9_sgl_wellformed (ts : GccgPtpTimestamp) (regions : List (Nat × Int)) :
    sgListWellFormed (mkSgList ts regions) := by
  refine ⟨rfl, rfl, ?_⟩
  intro t ht
  cases hh : chainOfRegions regions with
  | none => simp [mkSgList, hh] at ht
  | some e =>
      simp only [mkSgList, hh, Option.map_some'] at ht
      cases ht
      exact lastEntry_nextPtr e

/-- C10: in every `GccgRxCbData` delivered to a receive callback, the
`payload_json_str` and `media_array` fields are valid (non-`NULL`) exactly
when the delivered `status_code` is `kGccgStatusOk`, and on any error
status both fields are `NULL`. -/
theorem gccg_C10_rx_fields (status : GccgReturnStatus) (handle : Nat) (json : String)
    (media : GccgMediaElements) (userParam : Nat) :
    (mkRxCbData status handle json media userParam).statusCode = status ∧
    ((mkRxCbData status handle json media userParam).payloadJsonStr = some json ∧
      (mkRxCbData status handle json media userParam).mediaArray = some media ↔
      (mkRxCbData status handle json media userParam).statusCode = .kGccgStatusOk) ∧
    ((mkRxCbData status handle json media userParam).payloadJsonStr = none ∧
      (mkRxCbData status handle json media userParam).mediaArray = none ↔
      ¬ (mkRxCbData status handle json media userParam).statusCode = .kGccgStatusOk) := by
  by_cases h : status = GccgReturnStatus.kGccgStatusOk <;>
    simp [mkRxCbData, h]

/-- Marking a set of buffer indices `Allocated` never changes the number
of buffers of the pool. -/
theorem foldl_set_length (idxs : List Nat) (l : List BufferState) :
    (idxs.foldl (fun l i => l.set i BufferState.allocated) l).length = l.length := by
  induction idxs generalizing l with
  | nil => rfl
  | cons a rest ih => simpa [List.length_set] using ih (l.set a .allocated)

/-- A buffer whose index is not among those being marked keeps its
state. -/
theorem foldl_set_not_mem (idxs : List Nat) (l : List BufferState) (j : Nat)
    (hj : j ∉ idxs) :
    (idxs.foldl (fun l i => l.set i BufferState.allocated) l)[j]? = l[j]? := by
  induction idxs generalizing l with
  | nil => rfl
  | cons a rest ih =>
      have hja : a ≠ j := fun h => hj (h ▸ List.mem_cons_self a rest)
      have hjr : j ∉ rest := fun h => hj (List.mem_cons_of_mem a h)
      simpa [List.getElem?_set_ne hja] using ih (l.set a .allocated) hjr

/-- Every buffer whose index is among those being marked ends up
`Allocated`. -/
theorem foldl_set_mem (idxs : List Nat) (l : List BufferState) (j : Nat)
    (hj : j ∈ idxs) (hlen : j < l.length) :
    (idxs.foldl (fun l i => l.set i BufferState.allocated) l)[j]? =
      some BufferState.allocated := by
  induction idxs generalizing l with
  | nil => exact absurd hj (List.not_mem_nil j)
  | cons a rest ih =>
      by_cases hr : j ∈ rest
      · simpa using ih (l.set a .allocated) hr (by simpa [List.length_set] using hlen)
      · have hja : j = a := by
          rcases List.mem_cons.mp hj with h | h
          · exact h
          · exact absurd h hr
        subst hja
        have := foldl_set_not_mem rest (l.set j .allocated) j hr
        simpa [this] using List.getElem?_set_self (by simpa [List.length_set] using hlen)

/-- No pool operation changes the number of buffers of the pool. -/
theorem applyPoolOp_length (p : BufferPool) (op : PoolOp) :
    (applyPoolOp p op).bufs.length = p.bufs.length := by
  cases op with
  | request =>
      simp only [applyPoolOp, requestBuffer]
      cases h : findFreeIdx p.bufs <;> simp [List.length_set]
  | requestSegments =>
      simp only [applyPoolOp, requestSegmentSet]
      by_cases h : 8 ≤ (freeIndices p).length <;>
        simp [h, allocateIndices, foldl_set_length]
  | submit i =>
      simp only [applyPoolOp, setIfState]
      cases h : p.bufs[i]? with
      | none => rfl
      | some b => by_cases hb : b = BufferState.allocated <;> simp [hb, List.length_set]
  | complete i =>
      simp only [applyPoolOp, setIfState]
      cases h : p.bufs[i]? with
      | none => rfl
      | some b => by_cases hb : b = BufferState.inFlight <;> simp [hb, List.length_set]
  | release i =>
      simp only [applyPoolOp, setIfState]
      cases h : p.bufs[i]? with
      | none => rfl
      | some b => by_cases hb : b = BufferState.pendingFree <;> simp [hb, List.length_set]

/-- Any sequence of pool operations leaves the number of buffers of the
pool unchanged. -/
theorem foldl_applyPoolOp_length (ops : List PoolOp) (p : BufferPool) :
    (ops.foldl applyPoolOp p).bufs.length = p.bufs.length := by
  induction ops generalizing p with
  | nil => rfl
  | cons op rest ih => simpa [applyPoolOp_length] using ih (applyPoolOp p op)

/-- C3: in every state a connection's buffer pool can reach, the pool
still holds exactly its configured `bufferCount` buffers (the pool never
grows), so the number of `Allocated` or `InFlight` buffers never exceeds
`bufferCount`; and when no buffer is `Free`, a buffer request returns an
empty result immediately with the pool unchanged. -/
theorem gccg_C3_pool_bound (bufferCount : Nat) (ops : List PoolOp) :
    (runPool bufferCount ops).bufs.length = bufferCount ∧
    countActive (runPool bufferCount ops) ≤ bufferCount ∧
    (findFreeIdx (runPool bufferCount ops).bufs = none →
      requestBuffer (runPool bufferCount ops) = (none, runPool bufferCount ops)) := by
  have hlen : (runPool bufferCount ops).bufs.length = bufferCount := by
    simpa [runPool, initPool] using foldl_applyPoolOp_length ops (initPool bufferCount)
  refine ⟨hlen, ?_, ?_⟩
  · calc countActive (runPool bufferCount ops) ≤ (runPool bufferCount ops).bufs.length :=
          List.countP_le_length _
      _ = bufferCount := hlen
  · intro hfree
    simp [requestBuffer, hfree]

/-- C3 witness: with a single-buffer pool, one request allocates the only
buffer; the pool then has no `Free` entry, and a further request returns
the empty result with the pool unchanged. -/
theorem gccg_C3_pool_bound_witness :
    (runPool 1 [.request]).bufs.length = 1 ∧
    countActive (runPool 1 [.request]) ≤ 1 ∧
    findFreeIdx (runPool 1 [.request]).bufs = none ∧
    requestBuffer (runPool 1 [.request]) = (none, runPool 1 [.request]) := by
  have h := gccg_C3_pool_bound 1 [.request]
  exact ⟨h.1, h.2.1, by decide, h.2.2 (by decide)⟩

/-- C4: a segmented buffer request is atomic: when at least 8 buffers are
`Free` it reserves exactly the first 8 free entries as one segment set —
all 8 were `Free` and become `Allocated`, every other buffer is untouched;
when fewer than 8 are `Free` it returns an error and reserves nothing (the
pool is returned unchanged). -/
theorem gccg_C4_segment_atomicity (p : BufferPool) :
    ((freeIndices p).length < 8 → requestSegmentSet p = (none, p)) ∧
    (8 ≤ (freeIndices p).length →
      (requestSegmentSet p).1 = some ((freeIndices p).take 8) ∧
      ((freeIndices p).take 8).length = 8 ∧
      (∀ i ∈ (freeIndices p).take 8, p.bufs[i]? = some BufferState.free ∧
        (requestSegmentSet p).2.bufs[i]? = some BufferState.allocated) ∧
      (∀ j, j ∉ (freeIndices p).take 8 →
        (requestSegmentSet p).2.bufs[j]? = p.bufs[j]?)) := by
  constructor
  · intro hlt
    simp [requestSegmentSet, Nat.not_le.mpr hlt]
  · intro hge
    have hfst : (requestSegmentSet p).1 = some ((freeIndices p).take 8) := by
      simp [requestSegmentSet, hge]
    have hsnd : (requestSegmentSet p).2 = allocateIndices p ((freeIndices p).take 8) := by
      simp [requestSegmentSet, hge]
    refine ⟨hfst, ?_, ?_, ?_⟩
    · rw [List.length_take]; omega
    · intro i hi
      have hmem : i ∈ freeIndices p := List.take_subset 8 (freeIndices p) hi
      have hfilter := List.mem_filter.mp hmem
      have hfree : p.bufs[i]? = some BufferState.free := by
        simpa using hfilter.2
      have hlt : i < p.bufs.length := List.mem_range.mp hfilter.1
      refine ⟨hfree, ?_⟩
      rw [hsnd]
      exact foldl_set_mem _ p.bufs i hi hlt
    · intro j hj
      rw [hsnd]
      exact foldl_set_not_mem _ p.bufs j hj

/-- C4 witness: on a fresh pool of 9 free buffers a segmented request
reserves exactly the 8 lowest-index buffers, all of which become
`Allocated`, while buffer 8 stays `Free`; on a fresh pool of 7 buffers the
request fails and the pool is returned unchanged. -/
theorem gccg_C4_segment_atomicity_witness :
    (requestSegmentSet (initPool 9)).1 = some [0, 1, 2, 3, 4, 5, 6, 7] ∧
    (requestSegmentSet (initPool 9)).2.bufs[0]? = some BufferState.allocated ∧
    (requestSegmentSet (initPool 9)).2.bufs[8]? = some BufferState.free ∧
    (freeIndices (initPool 7)).length < 8 ∧
    requestSegmentSet (initPool 7) = (none, initPool 7) := by
  have h9 := (gccg_C4_segment_atomicity (initPool 9)).2 (by decide)
  have h7 := (gccg_C4_segment_atomicity (initPool 7)).1 (by decide)
  refine ⟨?_, by decide, by decide, by decide, h7⟩
  rw [h9.1]
  decide

/-- The delivery loop preserves the scheduler invariant: started on a
state whose delivered prefix is `range next` and whose held-back entries
are distinct and at least `next`, with enough fuel, it ends with the
delivered prefix still an initial segment of the sequence numbers, the
remaining held-back entries strictly above the new delivery point, and the
delivered and held-back entries together a permutation of what it started
with. -/
theorem drainLoop_spec (fuel : Nat) :
    ∀ (next : Nat) (held delivered : List Nat),
      held.length ≤ fuel →
      delivered = List.range next →
      held.Nodup →
      (∀ x ∈ held, next ≤ x) →
      (drainLoop fuel next held delivered).delivered =
          List.range (drainLoop fuel next held delivered).nextToDeliver ∧
      (drainLoop fuel next held delivered).heldBack.Nodup ∧
      (∀ x ∈ (drainLoop fuel next held delivered).heldBack,
          (drainLoop fuel next held delivered).nextToDeliver < x) ∧
      List.Perm
        ((drainLoop fuel next held delivered).delivered ++
          (drainLoop fuel next held delivered).heldBack)
        (delivered ++ held) := by
  induction fuel with
  | zero =>
      intro next held delivered hfuel hd hn hge
      have hnil : held = [] := List.eq_nil_of_length_eq_zero (Nat.le_zero.mp hfuel)
      subst hnil
      exact ⟨hd, List.nodup_nil, fun x hx => absurd hx (List.not_mem_nil x), List.Perm.refl _⟩
  | succ fuel ih =>
      intro next held delivered hfuel hd hn hge
      by_cases hmem : next ∈ held
      · have hstep : drainLoop (fuel + 1) next held delivered =
            drainLoop fuel (next + 1) (held.erase next) (delivered ++ [next]) := by
          simp [drainLoop, hmem]
        rw [hstep]
        have hfuel' : (held.erase next).length ≤ fuel := by
          rw [List.length_erase_of_mem hmem]
          omega
        have hd' : delivered ++ [next] = List.range (next + 1) := by
          rw [hd, List.range_succ]
        have hn' : (held.erase next).Nodup := hn.erase next
        have hge' : ∀ x ∈ held.erase next, next + 1 ≤ x := by
          intro x hx
          have hx' := (hn.mem_erase_iff).mp hx
          have := hge x hx'.2
          omega
        have hrec := ih (next + 1) (held.erase next) (delivered ++ [next]) hfuel' hd' hn' hge'
        refine ⟨hrec.1, hrec.2.1, hrec.2.2.1, ?_⟩
        refine hrec.2.2.2.trans ?_
        have h1 : delivered ++ [next] ++ held.erase next =
            delivered ++ (next :: held.erase next) := by
          simp
        rw [h1]
        exact List.Perm.append_left delivered (List.perm_cons_erase hmem).symm
      · have hstep : drainLoop (fuel + 1) next held delivered =
            ⟨next, held, delivered⟩ := by
          simp [drainLoop, hmem]
        rw [hstep]
        refine ⟨hd, hn, ?_, List.Perm.refl _⟩
        intro x hx
        have hx' : x ∈ held := hx
        have hne : next ≠ x := by
          intro heq
          exact hmem (heq ▸ hx')
        exact lt_of_le_of_ne (hge x hx') hne

/-- Lemma: `processAck` preserves the scheduler invariant when a not-yet-seen
sequence number is acknowledged. -/
theorem processAck_inv (st : SchedulerState) (acked : List Nat) (s : Nat)
    (hinv : SchedInv st acked) (hs : s ∉ acked) :
    SchedInv (processAck st s) (s :: acked) := by
  obtain ⟨hd, hn, hgt, hperm⟩ := hinv
  have hsm : s ∉ st.delivered ++ st.heldBack := fun h => hs (hperm.mem_iff.mp h)
  have hs_del : s ∉ st.delivered := fun h => hsm (List.mem_append_left _ h)
  have hs_held : s ∉ st.heldBack := fun h => hsm (List.mem_append_right _ h)
  have hge : ∀ x ∈ s :: st.heldBack, st.nextToDeliver ≤ x := by
    intro x hx
    rcases List.mem_cons.mp hx with rfl | hx'
    · by_contra hlt
      push_neg at hlt
      exact hs_del (hd ▸ List.mem_range.mpr hlt)
    · exact le_of_lt (hgt x hx')
  have hn' : (s :: st.heldBack).Nodup := List.nodup_cons.mpr ⟨hs_held, hn⟩
  have hspec := drainLoop_spec (s :: st.heldBack).length st.nextToDeliver
    (s :: st.heldBack) st.delivered (le_refl _) hd hn' hge
  refine ⟨hspec.1, hspec.2.1, hspec.2.2.1, ?_⟩
  refine hspec.2.2.2.trans ?_
  exact List.perm_middle.trans (hperm.cons s)

/-- Processing a run of distinct, fresh acknowledgements preserves the
scheduler invariant. -/
theorem foldl_processAck_inv (acks : List Nat) (st : SchedulerState) (acked : List Nat)
    (hinv : SchedInv st acked) (hnd : acks.Nodup)
    (hdisj : ∀ a ∈ acks, a ∉ acked) :
    SchedInv (acks.foldl processAck st) (acked ++ acks) := by
  induction acks generalizing st acked with
  | nil => simpa using hinv
  | cons a rest ih =>
      have hnda := List.nodup_cons.mp hnd
      have hstep := processAck_inv st acked a hinv (hdisj a (List.mem_cons_self a rest))
      have hdisj' : ∀ b ∈ rest, b ∉ a :: acked := by
        intro b hb hmem
        rcases List.mem_cons.mp hmem with rfl | hmem'
        · exact hnda.1 hb
        · exact hdisj b (List.mem_cons_of_mem a hb) hmem'
      have hrec := ih (processAck st a) (a :: acked) hstep hnda.2 hdisj'
      have hpm : List.Perm ((a :: acked) ++ rest) (acked ++ a :: rest) :=
        List.perm_middle.symm
      obtain ⟨h1, h2, h3, h4⟩ := hrec
      exact ⟨h1, h2, h3, h4.trans hpm⟩

/-- C1: for every connection, whatever order the transport acknowledges
the submitted payloads in, the scheduler delivers completion events to the
registered callback in strictly ascending sequence order with no
duplication; a sequence number is delivered exactly when every lower
sequence number has also completed (out-of-order completions are held
back); and once every submitted sequence number `0..n-1` has been
acknowledged, exactly those events have been delivered, in order, with
nothing held back (no loss). -/
theorem gccg_C1_completion_order (acks : List Nat) (hnd : acks.Nodup) :
    List.Pairwise (fun a b => a < b) (runAcks acks).delivered ∧
    (runAcks acks).delivered.Nodup ∧
    (∀ s, s ∈ (runAcks acks).delivered ↔ ∀ t, t ≤ s → t ∈ acks) ∧
    (∀ n, List.Perm acks (List.range n) →
      (runAcks acks).delivered = List.range n ∧ (runAcks acks).heldBack = []) := by
  have hinv : SchedInv (runAcks acks) acks := by
    have h0 : SchedInv initScheduler [] :=
      ⟨rfl, List.nodup_nil, by simp [initScheduler], by simp [initScheduler]⟩
    simpa [runAcks] using foldl_processAck_inv acks initScheduler [] h0 hnd (by simp)
  obtain ⟨hd, hn, hgt, hperm⟩ := hinv
  have hnext_not : (runAcks acks).nextToDeliver ∉ acks := by
    intro h
    rcases List.mem_append.mp (hperm.symm.mem_iff.mp h) with h1 | h2
    · rw [hd] at h1
      exact absurd (List.mem_range.mp h1) (lt_irrefl _)
    · exact absurd (hgt _ h2) (lt_irrefl _)
  have hlow : ∀ t, t < (runAcks acks).nextToDeliver → t ∈ acks := by
    intro t ht
    exact hperm.mem_iff.mp (List.mem_append_left _ (hd ▸ List.mem_range.mpr ht))
  refine ⟨?_, ?_, ?_, ?_⟩
  · rw [hd]
    exact List.pairwise_lt_range _
  · rw [hd]
    exact List.nodup_range _
  · intro s
    constructor
    · intro hs t hts
      have hslt : s < (runAcks acks).nextToDeliver := by
        rw [hd] at hs
        exact List.mem_range.mp hs
      exact hlow t (lt_of_le_of_lt hts hslt)
    · intro hall
      have hslt : s < (runAcks acks).nextToDeliver := by
        by_contra hge
        push_neg at hge
        exact hnext_not (hall _ hge)
      rw [hd]
      exact List.mem_range.mpr hslt
  · intro n hpn
    have hperm' := hperm.trans hpn
    have hle : (runAcks acks).nextToDeliver ≤ n := by
      by_contra hlt
      push_neg at hlt
      have : n ∈ acks := hlow n hlt
      have := List.mem_range.mp (hpn.mem_iff.mp this)
      omega
    have hge : n ≤ (runAcks acks).nextToDeliver := by
      by_contra hlt
      push_neg at hlt
      exact hnext_not (hpn.symm.mem_iff.mp (List.mem_range.mpr hlt))
    have heq : (runAcks acks).nextToDeliver = n := le_antisymm hle hge
    have hdel : (runAcks acks).delivered = List.range n := by
      rw [hd, heq]
    refine ⟨hdel, ?_⟩
    have hlen := hperm'.length_eq
    rw [List.length_append, hdel, List.length_range] at hlen
    exact List.eq_nil_of_length_eq_zero (by omega)

/-- C1 witness: with three payloads acknowledged by the transport in the
out-of-order sequence 1, 0, 2, the scheduler holds back completion 1 until
completion 0 arrives and delivers the events as 0, 1, 2 — strictly
ascending, nothing duplicated, nothing lost. -/
theorem gccg_C1_completion_order_witness :
    ([1, 0, 2] : List Nat).Nodup ∧
    (runAcks [1, 0, 2]).delivered = [0, 1, 2] ∧
    List.Pairwise (fun a b => a < b) (runAcks [1, 0, 2]).delivered ∧
    (runAcks [1, 0, 2]).heldBack = [] :=
  ⟨by decide, by decide, (gccg_C1_completion_order [1, 0, 2] (by decide)).1, by decide⟩

/-- One observation instant preserves the payload-lifecycle invariant. -/
theorem timeoutTick_inv (deadline : Nat) (st : PayloadRun) (now : Nat) (ack : Bool)
    (hinv : TimeoutInv st) : TimeoutInv (timeoutTick deadline st now ack) := by
  obtain ⟨ph, ev⟩ := st
  rcases hinv with ⟨hph, hlen⟩ | ⟨hph, hev⟩ <;> simp at hph <;> subst hph
  · exact Or.inl ⟨rfl, hlen⟩
  · subst hev
    simp only [timeoutTick]
    by_cases h1 : deadline < now
    · exact Or.inl (by simp [h1])
    · by_cases h2 : ack <;> simp [h1, h2, TimeoutInv]

/-- A resolved payload is never touched again by later instants. -/
theorem timeoutTick_done (deadline : Nat) (st : PayloadRun) (now : Nat) (ack : Bool)
    (h : st.phase = .done) : timeoutTick deadline st now ack = st := by
  obtain ⟨ph, ev⟩ := st
  simp at h
  subst h
  rfl

/-- Once a payload is resolved, any further sequence of instants leaves it
unchanged. -/
theorem foldl_timeoutTick_done (deadline : Nat) (ticks : List (Nat × Bool))
    (st : PayloadRun) (h : st.phase = .done) :
    ticks.foldl (fun st t => timeoutTick deadline st t.1 t.2) st = st := by
  induction ticks with
  | nil => rfl
  | cons t rest ih =>
      simp only [List.foldl_cons, timeoutTick_done deadline st t.1 t.2 h]
      exact ih

/-- Any sequence of observation instants preserves the payload-lifecycle
invariant. -/
theorem foldl_timeoutTick_inv (deadline : Nat) (ticks : List (Nat × Bool))
    (st : PayloadRun) (hinv : TimeoutInv st) :
    TimeoutInv (ticks.foldl (fun st t => timeoutTick deadline st t.1 t.2) st) := by
  induction ticks generalizing st with
  | nil => exact hinv
  | cons t rest ih => exact ih _ (timeoutTick_inv deadline st t.1 t.2 hinv)

/-- An instant past the deadline resolves the payload (if it was not
already resolved). -/
theorem timeoutTick_past (deadline : Nat) (st : PayloadRun) (now : Nat) (ack : Bool)
    (h : deadline < now) : (timeoutTick deadline st now ack).phase = .done := by
  obtain ⟨ph, ev⟩ := st
  cases ph with
  | done => rfl
  | inFlight => simp [timeoutTick, h]

/-- After a sequence of instants at least one of which lies past the
deadline, the payload is resolved. -/
theorem foldl_timeoutTick_past (deadline : Nat) (ticks : List (Nat × Bool))
    (st : PayloadRun) (hpast : ∃ t ∈ ticks, deadline < t.1) :
    (ticks.foldl (fun st t => timeoutTick deadline st t.1 t.2) st).phase = .done := by
  induction ticks generalizing st with
  | nil =>
      obtain ⟨t, ht, _⟩ := hpast
      exact absurd ht (List.not_mem_nil t)
  | cons t rest ih =>
      by_cases h : deadline < t.1
      · have hdone : (timeoutTick deadline st t.1 t.2).phase = .done :=
          timeoutTick_past deadline st t.1 t.2 h
        simp only [List.foldl_cons]
        rw [foldl_timeoutTick_done deadline rest _ hdone]
        exact hdone
      · obtain ⟨u, hu, hup⟩ := hpast
        rcases List.mem_cons.mp hu with rfl | hu'
        · exact absurd hup h
        · exact ih _ ⟨u, hu', hup⟩

/-- When the transport never acknowledges the payload, every event the
timeout manager generates is a `TimeoutExpired` event stamped at or after
the deadline. -/
theorem foldl_timeoutTick_noack (deadline : Nat) (ticks : List (Nat × Bool))
    (st : PayloadRun)
    (hnoack : ∀ t ∈ ticks, t.2 = false)
    (hev : ∀ e ∈ st.events, e.statusCode = GccgReturnStatus.kGccgStatusTimeoutExpired ∧
      deadline ≤ e.timeMicrosecs) :
    ∀ e ∈ (ticks.foldl (fun st t => timeoutTick deadline st t.1 t.2) st).events,
      e.statusCode = GccgReturnStatus.kGccgStatusTimeoutExpired ∧
      deadline ≤ e.timeMicrosecs := by
  induction ticks generalizing st with
  | nil => exact hev
  | cons t rest ih =>
      have hack : t.2 = false := hnoack t (List.mem_cons_self t rest)
      refine ih _ (fun u hu => hnoack u (List.mem_cons_of_mem t hu)) ?_
      obtain ⟨ph, ev⟩ := st
      cases ph with
      | done => exact hev
      | inFlight =>
          simp only [timeoutTick]
          by_cases h1 : deadline < t.1
          · simp only [h1, if_true]
            intro e he
            rcases List.mem_append.mp he with he' | he'
            · exact hev e he'
            · have : e = ⟨t.1, .kGccgStatusTimeoutExpired⟩ := by
                simpa using he'
              subst this
              exact ⟨rfl, le_of_lt h1⟩
          · simp only [h1, if_false, hack]
            exact hev

/-- C2: every payload accepted by a submission resolves to at most one
completion event at any instant, and to exactly one completion event once
the observed timeline passes the payload's deadline (submission time plus
timeout T); and a payload the transport never acknowledges only ever
produces `TimeoutExpired` completion events stamped at or after the
deadline — never a success completion. -/
theorem gccg_C2_single_completion (deadline : Nat) (ticks : List (Nat × Bool)) :
    (runTimeout deadline ticks).events.length ≤ 1 ∧
    ((∃ t ∈ ticks, deadline < t.1) → (runTimeout deadline ticks).events.length = 1) ∧
    ((∀ t ∈ ticks, t.2 = false) →
      ∀ e ∈ (runTimeout deadline ticks).events,
        e.statusCode = GccgReturnStatus.kGccgStatusTimeoutExpired ∧
        deadline ≤ e.timeMicrosecs) := by
  have h0 : TimeoutInv (⟨.inFlight, []⟩ : PayloadRun) := Or.inr ⟨rfl, rfl⟩
  have hinv : TimeoutInv (runTimeout deadline ticks) :=
    foldl_timeoutTick_inv deadline ticks _ h0
  refine ⟨?_, ?_, ?_⟩
  · rcases hinv with ⟨_, hlen⟩ | ⟨_, hev⟩
    · omega
    · simp [hev]
  · intro hpast
    have hdone : (runTimeout deadline ticks).phase = .done :=
      foldl_timeoutTick_past deadline ticks _ hpast
    rcases hinv with ⟨_, hlen⟩ | ⟨hph, _⟩
    · exact hlen
    · rw [hdone] at hph
      exact absurd hph (by simp)
  · intro hnoack
    exact foldl_timeoutTick_noack deadline ticks _ hnoack
      (fun e he => absurd he (List.not_mem_nil e))

/-- C2 witness: a payload with deadline 10 observed at instants 5 and 11
with no transport acknowledgement resolves to exactly one completion
event, a `TimeoutExpired` stamped at time 11, at or after the deadline,
with no success completion. -/
theorem gccg_C2_single_completion_witness :
    (runTimeout 10 [(5, false), (11, false)]).events =
      [⟨11, GccgReturnStatus.kGccgStatusTimeoutExpired⟩] ∧
    (runTimeout 10 [(5, false), (11, false)]).events.length = 1 ∧
    (∀ e ∈ (runTimeout 10 [(5, false), (11, false)]).events,
      e.statusCode = GccgReturnStatus.kGccgStatusTimeoutExpired ∧
      10 ≤ e.timeMicrosecs) :=
  ⟨by decide,
   (gccg_C2_single_completion 10 [(5, false), (11, false)]).2.1 (by decide),
   (gccg_C2_single_completion 10 [(5, false), (11, false)]).2.2 (by decide)⟩

/-- C6: a `GccgTxPayload` submission with a zero or negative
`timeout_microsecs` fails fast with `InvalidParameter` and leaves the
engine state unchanged, for every engine state, handle and payload. -/
theorem gccg_C6_nonpositive_timeout (e : Engine) (args : GccgTxPayloadArgs)
    (h : args.timeoutMicrosecs ≤ 0) :
    gccgTxPayload e args = (.kGccgStatusInvalidParameter, e) := by
  simp [gccgTxPayload, h]

/-- C6 witness: submissions with timeout 0 and with timeout -5, on a live
connection handle, both return `InvalidParameter` with the engine
unchanged. -/
theorem gccg_C6_nonpositive_timeout_witness :
    (⟨7, 8, 9, 0⟩ : GccgTxPayloadArgs).timeoutMicrosecs ≤ 0 ∧
    gccgTxPayload ⟨1, [7], 0⟩ ⟨7, 8, 9, 0⟩ =
      (.kGccgStatusInvalidParameter, ⟨1, [7], 0⟩) ∧
    gccgTxPayload ⟨1, [7], 0⟩ ⟨7, 8, 9, -5⟩ =
      (.kGccgStatusInvalidParameter, ⟨1, [7], 0⟩) :=
  ⟨by decide,
   gccg_C6_nonpositive_timeout ⟨1, [7], 0⟩ ⟨7, 8, 9, 0⟩ (by decide),
   gccg_C6_nonpositive_timeout ⟨1, [7], 0⟩ ⟨7, 8, 9, -5⟩ (by decide)⟩

/-- C7: destroying a connection whose handle is unknown to the registry
returns `InvalidParameter` with the registry unchanged; destroying a live
connection succeeds, and destroying the same handle a second time returns
`InvalidParameter` rather than succeeding as a no-op, so double-destroy is
detectable. -/
theorem gccg_C7_double_destroy (e : Engine) (handle : Nat) (hnd : e.live.Nodup) :
    (handle ∉ e.live →
      gccgConnectionDestroy e handle = (.kGccgStatusInvalidParameter, e)) ∧
    (handle ∈ e.live →
      (gccgConnectionDestroy e handle).1 = .kGccgStatusOk ∧
      gccgConnectionDestroy (gccgConnectionDestroy e handle).2 handle =
        (.kGccgStatusInvalidParameter, (gccgConnectionDestroy e handle).2)) := by
  constructor
  · intro h
    simp [gccgConnectionDestroy, h]
  · intro h
    have h1 : gccgConnectionDestroy e handle =
        (.kGccgStatusOk, { e with live := e.live.erase handle }) := by
      simp [gccgConnectionDestroy, h]
    have hnm : handle ∉ e.live.erase handle := by
      intro hmem
      exact ((hnd.mem_erase_iff).mp hmem).1 rfl
    refine ⟨by rw [h1], ?_⟩
    rw [h1]
    simp [gccgConnectionDestroy, hnm]

/-- C7 witness: in a registry with the single live handle 5, the first
destroy of handle 5 succeeds, the second returns `InvalidParameter`; and
destroying the unknown handle 99 in an empty registry returns
`InvalidParameter` with the registry unchanged. -/
theorem gccg_C7_double_destroy_witness :
    ([5] : List Nat).Nodup ∧
    (gccgConnectionDestroy ⟨1, [5], 0⟩ 5).1 = .kGccgStatusOk ∧
    gccgConnectionDestroy (gccgConnectionDestroy ⟨1, [5], 0⟩ 5).2 5 =
      (.kGccgStatusInvalidParameter, (gccgConnectionDestroy ⟨1, [5], 0⟩ 5).2) ∧
    gccgConnectionDestroy ⟨1, [], 0⟩ 99 = (.kGccgStatusInvalidParameter, ⟨1, [], 0⟩) := by
  have h2 := (gccg_C7_double_destroy ⟨1, [5], 0⟩ 5 (by decide)).2 (by decide)
  have h3 := (gccg_C7_double_destroy ⟨1, [], 0⟩ 99 (by decide)).1 (by decide)
  exact ⟨by decide, h2.1, h2.2, h3⟩

end Gccg
